import Mathlib

/-!
Verification of the ChatStore session state machine (ai-core).

The definitions below are a shallow embedding of the ChatStore class:
the session state, the tool registry, the send streaming reducer, the
runTool executor with its automatic continuation, and the history and
registry operations.  External collaborators of the store (the provider
adapter, the JSON parser of the JavaScript runtime, the id generator and
the clock) are passed in as explicit parameters, so every definition is
a pure function from the inputs the JavaScript code reads to the state
it writes.
-/

namespace AICore

/-- Model of a JavaScript runtime value (results of JSON.parse, tool
results, metadata entries). -/
inductive Json where
  | null
  | bool (b : Bool)
  | num (n : Int)
  | str (s : String)
  | arr (elems : List Json)
  | obj (fields : List (String × Json))

/-- JavaScript truthiness of a runtime value. -/
def Json.truthy : Json → Bool
  | .null => false
  | .bool b => b
  | .num n => n != 0
  | .str s => s != ""
  | .arr _ => true
  | .obj _ => true

/-- The JavaScript expression v OR d for an optional value v
(absent values and falsy values fall back to the default). -/
def jsOr (v : Option Json) (d : Json) : Json :=
  match v with
  | some j => if j.truthy then j else d
  | none => d

/-- A thrown JavaScript Error: its name and its message. -/
structure JsError where
  name : String
  msg : String
deriving DecidableEq

/-- Message roles. -/
inductive Role where
  | user
  | assistant
  | system
  | tool
deriving DecidableEq

/-- The string a role is represented by in the JavaScript code. -/
def Role.toStr : Role → String
  | .user => "user"
  | .assistant => "assistant"
  | .system => "system"
  | .tool => "tool"

/-- One typed unit within the content of a message. -/
inductive ContentPart where
  | text (text : String)
  | tool_use (name : String) (args : Json) (id : String)
  | tool_result (name : String) (result : Json) (forId : String)
  | file (mime : String) (name : String) (url : Option String) (data : Option String)

/-- A conversation message.  The optional meta bag is modelled as an
association list, the empty list standing for an absent bag. -/
structure Message where
  id : String
  role : Role
  content : List ContentPart
  createdAt : Nat
  meta : List (String × Json)

/-- Reading a key of the meta bag of a message (undefined gives none). -/
def lookupMeta (m : Message) (k : String) : Option Json :=
  (m.meta.find? (fun p => p.1 == k)).map (fun p => p.2)

/-- Session status values. -/
inductive Status where
  | idle
  | streaming
  | toolCalling
  | error
deriving DecidableEq

/-- The currentToolCall record: id, name and parsed arguments. -/
structure ToolCall where
  id : String
  name : String
  args : Json

/-- The observable session state held by the store. -/
structure ChatState where
  sessionId : String
  messages : List Message
  status : Status
  currentToolCall : Option ToolCall
  error : Option String

/-- A registered tool: name, schema and executor.  The executor models
the awaited promise of the execute function: it either resolves with a
result value or rejects with an Error. -/
structure ToolDef where
  name : String
  schema : Json
  execute : Json → Except JsError Json

/-- The whole store: session state plus the tool registry.  The
registry models a JavaScript Map: an insertion ordered association
list with unique keys. -/
structure Store where
  state : ChatState
  tools : List (String × ToolDef)

/-- Map.get on the registry. -/
def mapGet (m : List (String × ToolDef)) (k : String) : Option ToolDef :=
  (m.find? (fun p => p.1 == k)).map (fun p => p.2)

/-- Map.set on the registry: replace in place when the key exists,
append otherwise (JavaScript Map insertion order semantics). -/
def mapSet (m : List (String × ToolDef)) (k : String) (v : ToolDef) :
    List (String × ToolDef) :=
  if m.any (fun p => p.1 == k) then
    m.map (fun p => if p.1 == k then (k, v) else p)
  else
    m ++ [(k, v)]

/-- Array.from(map.values()). -/
def mapValues (m : List (String × ToolDef)) : List ToolDef :=
  m.map (fun p => p.2)

/-- A normalized stream fragment from the provider adapter. -/
inductive Delta where
  | text (chunk : String)
  | tool_use (name : String) (argsDelta : String) (id : String)
  | done (finishReason : Option String)

/-- The request handed to the provider chat function. -/
structure ChatRequest where
  model : Json
  messages : List Message
  tools : List ToolDef
  temperature : Option Int
  maxTokens : Option Int

/-- Per call options of send. -/
structure SendOpts where
  model : Option Json
  tools : Option (List ToolDef)
  temperature : Option Int
  maxTokens : Option Int

/-- The external collaborators of the store: the JSON parser of the
runtime and the provider chat endpoint.  The chat field models the
awaited provider call together with the full consumption of the
returned stream: it either rejects or yields a finite fragment list. -/
structure Env where
  parse : String → Except JsError Json
  chat : ChatRequest → Except JsError (List Delta)

/-- An environment whose provider always streams the given fragment
list (a stub adapter). -/
def constEnv (p : String → Except JsError Json) (ds : List Delta) : Env :=
  ⟨p, fun _ => .ok ds⟩

/-- The input of send: a plain string or a prebuilt content list. -/
inductive SendInput where
  | str (s : String)
  | parts (ps : List ContentPart)

/-- Model of the JavaScript trim method: strip whitespace from both
ends of the string. -/
def trimChars (s : String) : String :=
  String.mk (((s.toList.dropWhile Char.isWhitespace).reverse.dropWhile
    Char.isWhitespace).reverse)

/-- The emptiness test of send: empty or whitespace only string, or an
array with zero elements. -/
def SendInput.isEmptyInput : SendInput → Bool
  | .str s => trimChars s == ""
  | .parts ps => ps.isEmpty

/-- The content of the user message built from the input. -/
def SendInput.toParts : SendInput → List ContentPart
  | .str s => [.text s]
  | .parts ps => ps

/-- Extend the first text part with a chunk, or push a new text part at
the end when none exists (the find and push of the text delta branch). -/
def extendFirstText : List ContentPart → String → List ContentPart
  | [], chunk => [.text chunk]
  | .text t :: rest, chunk => .text (t ++ chunk) :: rest
  | p :: rest, chunk => p :: extendFirstText rest chunk

/-- Replace the first assistant message of the reversed list. -/
def replaceLastAssistantRev : List Message → Message → List Message
  | [], _ => []
  | m :: rest, am =>
      if m.role = .assistant then am :: rest else m :: replaceLastAssistantRev rest am

/-- The backwards loop of the reducer: replace the last assistant
message of the log. -/
def replaceLastAssistant (msgs : List Message) (am : Message) : List Message :=
  (replaceLastAssistantRev msgs.reverse am).reverse

/-- Place the in progress assistant draft into the log: append it when
the last message is missing or not an assistant message, otherwise
replace the last assistant message. -/
def placeAssistant (msgs : List Message) (am : Message) : List Message :=
  match msgs.getLast? with
  | none => msgs ++ [am]
  | some last => if last.role = .assistant then replaceLastAssistant msgs am else msgs ++ [am]

/-- Result of reducing the fragment list: the final assistant draft,
the state reached, and the exception propagating out of the loop when
JSON parsing of tool arguments threw. -/
structure ReduceOut where
  am : Message
  st : ChatState
  err : Option JsError

/-- The fragment loop of send.  A text fragment merges its chunk into
the draft and places the draft into the log; a tool_use fragment parses
the argument string, records the tool_use part, places the draft, sets
status tool-calling with currentToolCall, and stops consuming; a done
fragment stops consuming. -/
def reduceDeltas (p : String → Except JsError Json) :
    List Delta → Message → ChatState → ReduceOut
  | [], am, st => ⟨am, st, none⟩
  | .text chunk :: rest, am, st =>
      let am2 : Message := { am with content := extendFirstText am.content chunk }
      let st2 : ChatState := { st with messages := placeAssistant st.messages am2 }
      reduceDeltas p rest am2 st2
  | .tool_use nm argsDelta i :: _, am, st =>
      match p argsDelta with
      | .error e => ⟨am, st, some e⟩
      | .ok args =>
          let am2 : Message := { am with content := am.content ++ [.tool_use nm args i] }
          let st2 : ChatState := { st with
            messages := placeAssistant st.messages am2,
            status := .toolCalling,
            currentToolCall := some ⟨i, nm, args⟩ }
          ⟨am2, st2, none⟩
  | .done _ :: _, am, st => ⟨am, st, none⟩

/-- The user message appended by send. -/
def mkUserMessage (uid : String) (input : SendInput) (tU : Nat) : Message :=
  ⟨uid, .user, input.toParts, tU, []⟩

/-- The first state update of send: append the user message, enter
streaming, clear any previous error. -/
def startState (st : ChatState) (um : Message) : ChatState :=
  { st with messages := st.messages ++ [um], status := .streaming, error := none }

/-- The fresh assistant draft of a send call. -/
def mkDraft (aid : String) (tA : Nat) : Message :=
  ⟨aid, .assistant, [], tA, []⟩

/-- The chat request built by send: model option or empty string,
current log, caller supplied tool subset or the registry values. -/
def mkChatRequest (opts : SendOpts) (msgs : List Message) (registryTools : List ToolDef) :
    ChatRequest :=
  ⟨jsOr opts.model (.str ""), msgs, opts.tools.getD registryTools, opts.temperature, opts.maxTokens⟩

/-- The catch branch for a non abort error: status error, message
recorded, currentToolCall cleared. -/
def errState (st : ChatState) (e : JsError) : ChatState :=
  { st with status := .error, error := some e.msg, currentToolCall := none }

/-- Everything a send call produces: the updated store, the resolution
or rejection of its promise, and the request it issued to the provider
(none when it failed before issuing one). -/
structure SendOut where
  store : Store
  result : Except JsError Unit
  request : Option ChatRequest

/-- The send action.  uid and aid are the ids the id generator returns
for the user message and the assistant draft, tU and tA the clock
readings for their timestamps. -/
def send (env : Env) (uid aid : String) (tU tA : Nat) (store : Store)
    (input : SendInput) (opts : SendOpts) : SendOut :=
  let st := store.state
  if input.isEmptyInput then
    let e : JsError := ⟨"Error", "Input cannot be empty"⟩
    ⟨{ store with state := errState st e }, .error e, none⟩
  else if st.status = .streaming then
    let e : JsError := ⟨"Error", "Another message is already being processed"⟩
    ⟨{ store with state := errState st e }, .error e, none⟩
  else
    let st1 := startState st (mkUserMessage uid input tU)
    let req := mkChatRequest opts st1.messages (mapValues store.tools)
    match env.chat req with
    | .error e =>
        if e.name = "AbortError" then
          ⟨{ store with state := { st1 with status := .idle, currentToolCall := none } },
            .ok (), some req⟩
        else
          ⟨{ store with state := errState st1 e }, .error e, some req⟩
    | .ok deltas =>
        let r := reduceDeltas env.parse deltas (mkDraft aid tA) st1
        match r.err with
        | some e =>
            if e.name = "AbortError" then
              ⟨{ store with state := { r.st with status := .idle, currentToolCall := none } },
                .ok (), some req⟩
            else
              ⟨{ store with state := errState r.st e }, .error e, some req⟩
        | none =>
            let st2 := if 0 < r.am.content.length ∧ r.st.messages.length = 1 then
                { r.st with messages := r.st.messages ++ [r.am] }
              else r.st
            ⟨{ store with state := { st2 with status := .idle, currentToolCall := none } },
              .ok (), some req⟩

/-- The model option the continuation of runTool passes to send: the
model entry of the meta bag of the first message of the log. -/
def contModel (msgs : List Message) : Option Json :=
  msgs.head? >>= fun m => lookupMeta m "model"

/-- Everything a runTool call produces: the updated store, its
resolution or rejection, and the request the automatic continuation
issued to the provider. -/
structure RunOut where
  store : Store
  result : Except JsError Json
  contRequest : Option ChatRequest

/-- The runTool action.  Validates the call, looks the tool up, runs
the executor; on success appends the tool result message, returns to
idle, and re-invokes send with the Continue marker and the model of the
first message; on failure records the error and re-raises. -/
def runTool (env : Env) (toolMsgId : String) (tT : Nat)
    (uid aid : String) (tU tA : Nat)
    (store : Store) (call : ToolCall) : RunOut :=
  if call.name = "" ∨ call.id = "" then
    ⟨store, .error ⟨"Error", "Tool call must have name and id"⟩, none⟩
  else
    match mapGet store.tools call.name with
    | none => ⟨store, .error ⟨"Error", "Tool " ++ call.name ++ " not found"⟩, none⟩
    | some tool =>
        match tool.execute call.args with
        | .error e =>
            ⟨{ store with state := errState store.state e }, .error e, none⟩
        | .ok result =>
            let toolMsg : Message :=
              ⟨toolMsgId, .tool, [.tool_result call.name result call.id], tT, []⟩
            let st1 : ChatState := { store.state with
              messages := store.state.messages ++ [toolMsg],
              status := .idle, currentToolCall := none }
            if 0 < st1.messages.length then
              let s := send env uid aid tU tA { store with state := st1 } (.str "Continue")
                ⟨contModel st1.messages, none, none, none⟩
              match s.result with
              | .ok _ => ⟨s.store, .ok result, s.request⟩
              | .error e =>
                  ⟨{ s.store with state := errState s.store.state e }, .error e, s.request⟩
            else
              ⟨{ store with state := st1 }, .ok result, none⟩

/-- The stop action: force status back to idle and clear the current
tool call; the log and the error field are untouched. -/
def stop (store : Store) : Store :=
  { store with state := { store.state with status := .idle, currentToolCall := none } }

/-- The reset action: stop semantics plus a full wipe of log and error. -/
def reset (store : Store) : Store :=
  { store with state := { store.state with
      messages := [], status := .idle, error := none, currentToolCall := none } }

/-- The structural validity check importHistory runs on each entry:
truthy id and truthy role string (the content field is always an array
in this typed model, so that third check holds by construction). -/
def msgValid (m : Message) : Bool :=
  m.id != "" && m.role.toStr != ""

/-- The importHistory action: validate every entry before any state
change, then replace the log wholesale. -/
def importHistory (store : Store) (msgs : List Message) : Store × Except JsError Unit :=
  if msgs.all msgValid then
    ({ store with state := { store.state with messages := msgs } }, .ok ())
  else
    (store, .error ⟨"Error", "Invalid message format"⟩)

/-- The exportHistory action: a shallow snapshot of the log. -/
def exportHistory (store : Store) : List Message :=
  store.state.messages

/-- The registerTool action: name must be truthy, then store by name
with last write wins semantics. -/
def registerTool (store : Store) (tool : ToolDef) : Store × Except JsError Unit :=
  if tool.name = "" then
    (store, .error ⟨"Error", "Tool must have a valid name"⟩)
  else
    ({ store with tools := mapSet store.tools tool.name tool }, .ok ())

/-- The unregisterTool action. -/
def unregisterTool (store : Store) (name : String) : Store × Except JsError Unit :=
  if name = "" then
    (store, .error ⟨"Error", "Tool name must be a valid string"⟩)
  else if (mapGet store.tools name).isSome then
    ({ store with tools := store.tools.filter (fun p => p.1 != name) }, .ok ())
  else
    (store, .error ⟨"Error", "Tool " ++ name ++ " not found"⟩)

/-- The getTools action: snapshot of the registry values. -/
def getTools (store : Store) : List ToolDef :=
  mapValues store.tools

/-- A freshly constructed session: empty log, idle, no error, empty
registry. -/
def freshStore (sid : String) : Store :=
  ⟨⟨sid, [], .idle, none, none⟩, []⟩

/-- The draft and state reached after a prefix of text fragments. -/
def textFold : List Delta → Message → ChatState → Message × ChatState
  | [], am, st => (am, st)
  | .text c :: rest, am, st =>
      let am2 : Message := { am with content := extendFirstText am.content c }
      let st2 : ChatState := { st with messages := placeAssistant st.messages am2 }
      textFold rest am2 st2
  | _ :: _, am, st => (am, st)

lemma replaceLastAssistant_snoc (xs : List Message) (a b : Message)
    (ha : a.role = .assistant) :
    replaceLastAssistant (xs ++ [a]) b = xs ++ [b] := by
  unfold replaceLastAssistant
  rw [List.reverse_append]
  simp only [List.reverse_cons, List.reverse_nil, List.nil_append, List.singleton_append]
  rw [replaceLastAssistantRev, if_pos ha]
  simp

lemma placeAssistant_snoc_assistant (xs : List Message) (a b : Message)
    (ha : a.role = .assistant) :
    placeAssistant (xs ++ [a]) b = xs ++ [b] := by
  unfold placeAssistant
  rw [List.getLast?_concat]
  simp only [if_pos ha]
  exact replaceLastAssistant_snoc xs a b ha

lemma placeAssistant_snoc_other (xs : List Message) (a b : Message)
    (ha : a.role ≠ .assistant) :
    placeAssistant (xs ++ [a]) b = (xs ++ [a]) ++ [b] := by
  unfold placeAssistant
  rw [List.getLast?_concat]
  simp only [if_neg ha]

/-- Accumulator form of the text merging loop: starting from a draft
holding one text part and already placed as last element of the log,
each further text fragment extends that part in place. -/
lemma reduceDeltas_texts_acc (p : String → Except JsError Json)
    (ds : List Delta) (aid : String) (tA : Nat) (base : List Message) :
    ∀ (cs : List String) (s : String) (st : ChatState),
      st.messages = base ++ [⟨aid, .assistant, [.text s], tA, []⟩] →
      reduceDeltas p (cs.map Delta.text ++ ds) ⟨aid, .assistant, [.text s], tA, []⟩ st
        = reduceDeltas p ds ⟨aid, .assistant, [.text (cs.foldl (fun a b => a ++ b) s)], tA, []⟩
            { st with messages :=
                base ++ [⟨aid, .assistant, [.text (cs.foldl (fun a b => a ++ b) s)], tA, []⟩] }
  | [], s, st, hst => by
      simp only [List.map_nil, List.nil_append, List.foldl_nil]
      congr 1
      cases st
      simp_all
  | c :: cs, s, st, hst => by
      simp only [List.map_cons, List.cons_append, List.foldl_cons]
      rw [reduceDeltas]
      have h1 : extendFirstText [ContentPart.text s] c = [ContentPart.text (s ++ c)] := rfl
      simp only [h1]
      rw [hst, placeAssistant_snoc_assistant base _ _ rfl]
      exact reduceDeltas_texts_acc p ds aid tA base cs (s ++ c)
        { st with messages := base ++ [⟨aid, .assistant, [.text (s ++ c)], tA, []⟩] } rfl

lemma string_join_cons (c : String) (cs : List String) :
    String.join (c :: cs) = cs.foldl (fun a b => a ++ b) c := by
  simp [String.join]


/-- Claim C3: for a finite stream of text fragments whose chunks
concatenate in arrival order to S, followed by done, send resolves
successfully, the final assistant message holds exactly one content
part, a text part equal to S, and the session status is idle with no
current tool call. -/
theorem c3_text_concat (p : String → Except JsError Json)
    (cs : List String) (hcs : cs ≠ []) (rsn : Option String)
    (uid aid : String) (tU tA : Nat) (store : Store) (input : SendInput)
    (opts : SendOpts)
    (hin : input.isEmptyInput = false)
    (hstr : store.state.status ≠ .streaming) :
    (send (constEnv p (cs.map Delta.text ++ [Delta.done rsn])) uid aid tU tA
        store input opts).result = .ok ()
    ∧ (send (constEnv p (cs.map Delta.text ++ [Delta.done rsn])) uid aid tU tA
        store input opts).store.state.status = .idle
    ∧ (send (constEnv p (cs.map Delta.text ++ [Delta.done rsn])) uid aid tU tA
        store input opts).store.state.currentToolCall = none
    ∧ (send (constEnv p (cs.map Delta.text ++ [Delta.done rsn])) uid aid tU tA
        store input opts).store.state.messages
      = store.state.messages ++ [mkUserMessage uid input tU,
          ⟨aid, .assistant, [.text (String.join cs)], tA, []⟩] := by
  obtain ⟨c, cs', rfl⟩ : ∃ c cs', cs = c :: cs' := by
    cases cs with
    | nil => exact absurd rfl hcs
    | cons c cs' => exact ⟨c, cs', rfl⟩
  have hred :
      reduceDeltas p ((c :: cs').map Delta.text ++ [Delta.done rsn]) (mkDraft aid tA)
          (startState store.state (mkUserMessage uid input tU))
        = ⟨⟨aid, .assistant, [.text (String.join (c :: cs'))], tA, []⟩,
            { startState store.state (mkUserMessage uid input tU) with
                messages := (store.state.messages ++ [mkUserMessage uid input tU])
                  ++ [⟨aid, .assistant, [.text (String.join (c :: cs'))], tA, []⟩] },
            none⟩ := by
    rw [string_join_cons]
    simp only [List.map_cons, List.cons_append]
    rw [reduceDeltas]
    have h1 : extendFirstText (mkDraft aid tA).content c = [ContentPart.text c] := rfl
    simp only [h1]
    have h2 : (startState store.state (mkUserMessage uid input tU)).messages
        = store.state.messages ++ [mkUserMessage uid input tU] := rfl
    rw [h2]
    rw [placeAssistant_snoc_other store.state.messages (mkUserMessage uid input tU) _
      (by simp [mkUserMessage])]
    simp only [mkDraft]
    rw [reduceDeltas_texts_acc p [Delta.done rsn] aid tA
      (store.state.messages ++ [mkUserMessage uid input tU]) cs' c _ rfl]
    rw [reduceDeltas]
  unfold send
  simp only [hin, Bool.false_eq_true, if_false]
  rw [if_neg hstr]
  simp only [constEnv]
  rw [hred]
  simp only []
  have hlen : ¬(0 < ([ContentPart.text (String.join (c :: cs'))] : List ContentPart).length
      ∧ ((store.state.messages ++ [mkUserMessage uid input tU])
        ++ [(⟨aid, .assistant, [.text (String.join (c :: cs'))], tA, []⟩ : Message)]).length = 1) := by
    rintro ⟨-, h⟩
    simp [List.length_append] at h
  rw [if_neg hlen]
  simp [List.append_assoc]


/-- Witness for C3 at a concrete two chunk stream. -/
theorem c3_text_concat_witness :
    (send (constEnv (fun _ => .ok Json.null)
        ((["Hello ", "world!"].map Delta.text) ++ [Delta.done none]))
      "u" "a" 0 0 (freshStore "s") (.parts [.text "Hi"]) ⟨none, none, none, none⟩).result
      = .ok ()
    ∧ (send (constEnv (fun _ => .ok Json.null)
        ((["Hello ", "world!"].map Delta.text) ++ [Delta.done none]))
      "u" "a" 0 0 (freshStore "s") (.parts [.text "Hi"]) ⟨none, none, none, none⟩).store.state.status
      = .idle
    ∧ (send (constEnv (fun _ => .ok Json.null)
        ((["Hello ", "world!"].map Delta.text) ++ [Delta.done none]))
      "u" "a" 0 0 (freshStore "s") (.parts [.text "Hi"]) ⟨none, none, none,
        none⟩).store.state.currentToolCall
      = none
    ∧ (send (constEnv (fun _ => .ok Json.null)
        ((["Hello ", "world!"].map Delta.text) ++ [Delta.done none]))
      "u" "a" 0 0 (freshStore "s") (.parts [.text "Hi"]) ⟨none, none, none,
        none⟩).store.state.messages
      = (freshStore "s").state.messages ++ [mkUserMessage "u" (.parts [.text "Hi"]) 0,
          ⟨"a", .assistant, [.text (String.join ["Hello ", "world!"])], 0, []⟩] :=
  c3_text_concat (fun _ => .ok Json.null) ["Hello ", "world!"] (by simp) none
    "u" "a" 0 0 (freshStore "s") (.parts [.text "Hi"]) ⟨none, none, none, none⟩
    rfl (by simp [freshStore])

lemma reduceDeltas_append_texts (p : String → Except JsError Json) :
    ∀ (pre : List Delta), (∀ d ∈ pre, ∃ c, d = Delta.text c) →
    ∀ (ds : List Delta) (am : Message) (st : ChatState),
      reduceDeltas p (pre ++ ds) am st
        = reduceDeltas p ds (textFold pre am st).1 (textFold pre am st).2
  | [], _, ds, am, st => rfl
  | d :: pre, hpre, ds, am, st => by
      obtain ⟨c, rfl⟩ := hpre d (by simp)
      simp only [List.cons_append]
      rw [reduceDeltas, textFold]
      exact reduceDeltas_append_texts p pre (fun d hd => hpre d (by simp [hd])) ds _ _

lemma reduceDeltas_tool_use_cut (p : String → Except JsError Json)
    (nm a i : String) (post : List Delta) (am : Message) (st : ChatState) :
    reduceDeltas p (.tool_use nm a i :: post) am st
      = reduceDeltas p [.tool_use nm a i] am st := by
  cases h : p a <;> simp [reduceDeltas, h]

lemma reduceDeltas_tool_use_ok (p : String → Except JsError Json)
    (nm a i : String) (args : Json) (hp : p a = .ok args)
    (am : Message) (st : ChatState) :
    reduceDeltas p [.tool_use nm a i] am st
      = ⟨{ am with content := am.content ++ [.tool_use nm args i] },
          { st with
            messages := placeAssistant st.messages
              { am with content := am.content ++ [.tool_use nm args i] },
            status := .toolCalling,
            currentToolCall := some ⟨i, nm, args⟩ },
          none⟩ := by
  rw [reduceDeltas, hp]


/-- Claim C1, amended: a tool_use fragment halts fragment consumption
(the result of send does not depend on fragments after it), and during
the reduction the state passes through tool-calling with currentToolCall
holding the fragment name, id and JSON parsed arguments; however, when
send resolves, the final unconditional update has set status back to
idle and cleared currentToolCall, rather than leaving them in place as
the original claim states. -/
theorem c1_tool_use_halts (p : String → Except JsError Json)
    (pre post : List Delta) (hpre : ∀ d ∈ pre, ∃ c, d = Delta.text c)
    (nm a i : String) (args : Json) (hp : p a = .ok args)
    (uid aid : String) (tU tA : Nat) (store : Store) (input : SendInput)
    (opts : SendOpts)
    (hin : input.isEmptyInput = false)
    (hstr : store.state.status ≠ .streaming) :
    send (constEnv p (pre ++ Delta.tool_use nm a i :: post)) uid aid tU tA store input opts
      = send (constEnv p (pre ++ [Delta.tool_use nm a i])) uid aid tU tA store input opts
    ∧ (send (constEnv p (pre ++ Delta.tool_use nm a i :: post)) uid aid tU tA store
        input opts).store.state.status = .idle
    ∧ (send (constEnv p (pre ++ Delta.tool_use nm a i :: post)) uid aid tU tA store
        input opts).store.state.currentToolCall = none
    ∧ (reduceDeltas p (pre ++ Delta.tool_use nm a i :: post) (mkDraft aid tA)
        (startState store.state (mkUserMessage uid input tU))).st.status = .toolCalling
    ∧ (reduceDeltas p (pre ++ Delta.tool_use nm a i :: post) (mkDraft aid tA)
        (startState store.state (mkUserMessage uid input tU))).st.currentToolCall
        = some ⟨i, nm, args⟩ := by
  have hfull : ∀ ds2 : List Delta,
      reduceDeltas p (pre ++ Delta.tool_use nm a i :: ds2) (mkDraft aid tA)
        (startState store.state (mkUserMessage uid input tU))
      = reduceDeltas p [Delta.tool_use nm a i]
          (textFold pre (mkDraft aid tA)
            (startState store.state (mkUserMessage uid input tU))).1
          (textFold pre (mkDraft aid tA)
            (startState store.state (mkUserMessage uid input tU))).2 := by
    intro ds2
    rw [reduceDeltas_append_texts p pre hpre, reduceDeltas_tool_use_cut]
  have htrunc :
      reduceDeltas p (pre ++ [Delta.tool_use nm a i]) (mkDraft aid tA)
        (startState store.state (mkUserMessage uid input tU))
      = reduceDeltas p (pre ++ Delta.tool_use nm a i :: post) (mkDraft aid tA)
          (startState store.state (mkUserMessage uid input tU)) := by
    rw [hfull post, hfull []]
  refine ⟨?_, ?_, ?_, ?_, ?_⟩
  · unfold send
    simp only [hin, Bool.false_eq_true, if_false]
    simp only [if_neg hstr]
    simp only [constEnv]
    rw [htrunc]
  · unfold send
    simp only [hin, Bool.false_eq_true, if_false]
    rw [if_neg hstr]
    simp only [constEnv]
    rw [hfull post, reduceDeltas_tool_use_ok p nm a i args hp]
  · unfold send
    simp only [hin, Bool.false_eq_true, if_false]
    rw [if_neg hstr]
    simp only [constEnv]
    rw [hfull post, reduceDeltas_tool_use_ok p nm a i args hp]
  · rw [hfull post, reduceDeltas_tool_use_ok p nm a i args hp]
  · rw [hfull post, reduceDeltas_tool_use_ok p nm a i args hp]


/-- Counterexample to C1 as stated: after a send whose stream yields a
tool_use fragment, the resolved status is idle and currentToolCall is
cleared, not the claimed tool-calling state. -/
theorem c1_counterexample :
    (send (constEnv (fun _ => .ok (Json.obj []))
        [Delta.tool_use "get_weather" "{}_args" "c1", Delta.done none])
      "u" "a" 0 0 (freshStore "s") (.parts [.text "Hi"])
      ⟨none, none, none, none⟩).result = .ok ()
    ∧ (send (constEnv (fun _ => .ok (Json.obj []))
        [Delta.tool_use "get_weather" "{}_args" "c1", Delta.done none])
      "u" "a" 0 0 (freshStore "s") (.parts [.text "Hi"])
      ⟨none, none, none, none⟩).store.state.status = .idle
    ∧ (send (constEnv (fun _ => .ok (Json.obj []))
        [Delta.tool_use "get_weather" "{}_args" "c1", Delta.done none])
      "u" "a" 0 0 (freshStore "s") (.parts [.text "Hi"])
      ⟨none, none, none, none⟩).store.state.currentToolCall = none
    ∧ Status.idle ≠ Status.toolCalling :=
  ⟨rfl, rfl, rfl, by decide⟩

/-- Witness for the amended C1 at a concrete stream with one text
fragment before the tool_use and one after it. -/
theorem c1_tool_use_halts_witness :
    send (constEnv (fun _ => .ok (Json.obj []))
        ([Delta.text "Hey"] ++ Delta.tool_use "get_weather" "{}_args" "c1"
          :: [Delta.text "IGNORED"]))
      "u" "a" 0 0 (freshStore "s") (.parts [.text "Hi"]) ⟨none, none, none, none⟩
      = send (constEnv (fun _ => .ok (Json.obj []))
          ([Delta.text "Hey"] ++ [Delta.tool_use "get_weather" "{}_args" "c1"]))
        "u" "a" 0 0 (freshStore "s") (.parts [.text "Hi"]) ⟨none, none, none, none⟩
    ∧ (send (constEnv (fun _ => .ok (Json.obj []))
        ([Delta.text "Hey"] ++ Delta.tool_use "get_weather" "{}_args" "c1"
          :: [Delta.text "IGNORED"]))
      "u" "a" 0 0 (freshStore "s") (.parts [.text "Hi"])
      ⟨none, none, none, none⟩).store.state.status = .idle
    ∧ (send (constEnv (fun _ => .ok (Json.obj []))
        ([Delta.text "Hey"] ++ Delta.tool_use "get_weather" "{}_args" "c1"
          :: [Delta.text "IGNORED"]))
      "u" "a" 0 0 (freshStore "s") (.parts [.text "Hi"])
      ⟨none, none, none, none⟩).store.state.currentToolCall = none
    ∧ (reduceDeltas (fun _ => .ok (Json.obj []))
        ([Delta.text "Hey"] ++ Delta.tool_use "get_weather" "{}_args" "c1"
          :: [Delta.text "IGNORED"])
        (mkDraft "a" 0)
        (startState (freshStore "s").state
          (mkUserMessage "u" (.parts [.text "Hi"]) 0))).st.status = .toolCalling
    ∧ (reduceDeltas (fun _ => .ok (Json.obj []))
        ([Delta.text "Hey"] ++ Delta.tool_use "get_weather" "{}_args" "c1"
          :: [Delta.text "IGNORED"])
        (mkDraft "a" 0)
        (startState (freshStore "s").state
          (mkUserMessage "u" (.parts [.text "Hi"]) 0))).st.currentToolCall
      = some ⟨"c1", "get_weather", Json.obj []⟩ :=
  c1_tool_use_halts (fun _ => .ok (Json.obj [])) [Delta.text "Hey"]
    [Delta.text "IGNORED"]
    (by intro d hd; simp at hd; exact ⟨"Hey", hd⟩)
    "get_weather" "{}_args" "c1" (Json.obj []) rfl
    "u" "a" 0 0 (freshStore "s") (.parts [.text "Hi"]) ⟨none, none, none, none⟩
    rfl (by simp [freshStore])

/-- Claim C2, amended: send with empty input, or send while streaming,
rejects with the corresponding error and leaves messages unchanged, but
the catch handler then mutates the session: status becomes error, the
message of the raised error is recorded, and currentToolCall is
cleared, contrary to the original claim that the entire state is left
untouched. -/
theorem c2_invalid_send_state (env : Env) (uid aid : String) (tU tA : Nat)
    (store : Store) (input : SendInput) (opts : SendOpts)
    (h : input.isEmptyInput = true
      ∨ (input.isEmptyInput = false ∧ store.state.status = .streaming)) :
    (input.isEmptyInput = true →
      send env uid aid tU tA store input opts
        = ⟨⟨errState store.state ⟨"Error", "Input cannot be empty"⟩, store.tools⟩,
            .error ⟨"Error", "Input cannot be empty"⟩, none⟩)
    ∧ (input.isEmptyInput = false → store.state.status = .streaming →
      send env uid aid tU tA store input opts
        = ⟨⟨errState store.state ⟨"Error", "Another message is already being processed"⟩,
              store.tools⟩,
            .error ⟨"Error", "Another message is already being processed"⟩, none⟩)
    ∧ (send env uid aid tU tA store input opts).store.state.messages
        = store.state.messages
    ∧ (send env uid aid tU tA store input opts).store.state.status = .error
    ∧ (send env uid aid tU tA store input opts).store.state.currentToolCall
        = none := by
  rcases h with h | ⟨h1, h2⟩
  · have hsend : send env uid aid tU tA store input opts
        = ⟨⟨errState store.state ⟨"Error", "Input cannot be empty"⟩, store.tools⟩,
            .error ⟨"Error", "Input cannot be empty"⟩, none⟩ := by
      unfold send
      simp [h]
    refine ⟨fun _ => hsend, fun hc => absurd h (by simp [hc]), ?_, ?_, ?_⟩ <;>
      simp [hsend, errState]
  · have hsend : send env uid aid tU tA store input opts
        = ⟨⟨errState store.state ⟨"Error", "Another message is already being processed"⟩,
              store.tools⟩,
            .error ⟨"Error", "Another message is already being processed"⟩, none⟩ := by
      unfold send
      simp only [h1, Bool.false_eq_true, if_false]
      rw [if_pos h2]
    refine ⟨fun hc => absurd h1 (by simp [hc]), fun _ _ => hsend, ?_, ?_, ?_⟩ <;>
      simp [hsend, errState]

/-- Counterexample to C2 as stated: an empty input send on a fresh
session leaves status error with a recorded error message, while the
pre-call state was idle with no error. -/
theorem c2_counterexample :
    (send (constEnv (fun _ => .ok Json.null) []) "u" "a" 0 0 (freshStore "s")
      (.str "") ⟨none, none, none, none⟩).store.state.status = .error
    ∧ (send (constEnv (fun _ => .ok Json.null) []) "u" "a" 0 0 (freshStore "s")
      (.str "") ⟨none, none, none, none⟩).store.state.error
        = some "Input cannot be empty"
    ∧ (freshStore "s").state.status = .idle
    ∧ (freshStore "s").state.error = none
    ∧ Status.error ≠ Status.idle :=
  ⟨rfl, rfl, rfl, rfl, by decide⟩

/-- Witness for the amended C2 at a whitespace only input. -/
theorem c2_invalid_send_state_witness :
    ((SendInput.str " ").isEmptyInput = true →
      send (constEnv (fun _ => .ok Json.null) []) "u" "a" 0 0 (freshStore "s")
          (.str " ") ⟨none, none, none, none⟩
        = ⟨⟨errState (freshStore "s").state ⟨"Error", "Input cannot be empty"⟩,
              (freshStore "s").tools⟩,
            .error ⟨"Error", "Input cannot be empty"⟩, none⟩)
    ∧ ((SendInput.str " ").isEmptyInput = false →
        (freshStore "s").state.status = .streaming →
      send (constEnv (fun _ => .ok Json.null) []) "u" "a" 0 0 (freshStore "s")
          (.str " ") ⟨none, none, none, none⟩
        = ⟨⟨errState (freshStore "s").state
                ⟨"Error", "Another message is already being processed"⟩,
              (freshStore "s").tools⟩,
            .error ⟨"Error", "Another message is already being processed"⟩, none⟩)
    ∧ (send (constEnv (fun _ => .ok Json.null) []) "u" "a" 0 0 (freshStore "s")
        (.str " ") ⟨none, none, none, none⟩).store.state.messages
        = (freshStore "s").state.messages
    ∧ (send (constEnv (fun _ => .ok Json.null) []) "u" "a" 0 0 (freshStore "s")
        (.str " ") ⟨none, none, none, none⟩).store.state.status = .error
    ∧ (send (constEnv (fun _ => .ok Json.null) []) "u" "a" 0 0 (freshStore "s")
        (.str " ") ⟨none, none, none, none⟩).store.state.currentToolCall = none :=
  c2_invalid_send_state (constEnv (fun _ => .ok Json.null) []) "u" "a" 0 0
    (freshStore "s") (.str " ") ⟨none, none, none, none⟩ (Or.inl (by decide))


/-- A send against a provider that immediately finishes: the user
message is appended, nothing else, and the session returns to idle. -/
lemma send_done_eq (p : String → Except JsError Json) (rsn : Option String)
    (uid aid : String) (tU tA : Nat) (store : Store) (input : SendInput)
    (opts : SendOpts)
    (hin : input.isEmptyInput = false)
    (hstr : store.state.status ≠ .streaming) :
    send (constEnv p [Delta.done rsn]) uid aid tU tA store input opts
      = ⟨⟨{ store.state with
              messages := store.state.messages ++ [mkUserMessage uid input tU],
              status := .idle, currentToolCall := none, error := none },
            store.tools⟩,
          .ok (),
          some (mkChatRequest opts
            (store.state.messages ++ [mkUserMessage uid input tU])
            (mapValues store.tools))⟩ := by
  unfold send
  simp only [hin, Bool.false_eq_true, if_false]
  rw [if_neg hstr]
  simp only [constEnv]
  rw [reduceDeltas]
  simp only []
  rw [if_neg (by rintro ⟨h, -⟩; simp [mkDraft] at h)]
  rfl

/-- Claim C4: a runTool call on a registered tool whose executor
resolves appends a tool role message whose single content part is a
tool_result carrying the call name and forId equal to the call id, sets
status idle and clears currentToolCall, and automatically re-invokes
generation as an internal send whose request reuses the model of the
meta bag of the first message of the log.  Stated against a provider
whose continuation stream finishes immediately. -/
theorem c4_runTool_success (p : String → Except JsError Json) (rsn : Option String)
    (toolMsgId : String) (tT : Nat) (uid aid : String) (tU tA : Nat)
    (store : Store) (call : ToolCall) (tool : ToolDef) (res : Json)
    (hname : call.name ≠ "") (hid : call.id ≠ "")
    (hreg : mapGet store.tools call.name = some tool)
    (hexec : tool.execute call.args = .ok res) :
    (runTool (constEnv p [Delta.done rsn]) toolMsgId tT uid aid tU tA store
      call).result = .ok res
    ∧ (runTool (constEnv p [Delta.done rsn]) toolMsgId tT uid aid tU tA store
      call).store.state.messages
      = store.state.messages
        ++ [⟨toolMsgId, .tool, [.tool_result call.name res call.id], tT, []⟩,
            ⟨uid, .user, [.text "Continue"], tU, []⟩]
    ∧ (runTool (constEnv p [Delta.done rsn]) toolMsgId tT uid aid tU tA store
      call).store.state.status = .idle
    ∧ (runTool (constEnv p [Delta.done rsn]) toolMsgId tT uid aid tU tA store
      call).store.state.currentToolCall = none
    ∧ (runTool (constEnv p [Delta.done rsn]) toolMsgId tT uid aid tU tA store
      call).contRequest
      = some (mkChatRequest
          ⟨contModel (store.state.messages
            ++ [⟨toolMsgId, .tool, [.tool_result call.name res call.id], tT, []⟩]),
            none, none, none⟩
          (store.state.messages
            ++ [⟨toolMsgId, .tool, [.tool_result call.name res call.id], tT, []⟩,
                ⟨uid, .user, [.text "Continue"], tU, []⟩])
          (mapValues store.tools)) := by
  have hrun :
      runTool (constEnv p [Delta.done rsn]) toolMsgId tT uid aid tU tA store call
        = ⟨⟨{ store.state with
                messages := (store.state.messages
                  ++ [⟨toolMsgId, .tool, [.tool_result call.name res call.id], tT, []⟩])
                  ++ [mkUserMessage uid (.str "Continue") tU],
                status := .idle, currentToolCall := none, error := none },
              store.tools⟩,
            .ok res,
            some (mkChatRequest
              ⟨contModel (store.state.messages
                ++ [⟨toolMsgId, .tool, [.tool_result call.name res call.id], tT, []⟩]),
                none, none, none⟩
              ((store.state.messages
                ++ [⟨toolMsgId, .tool, [.tool_result call.name res call.id], tT, []⟩])
                ++ [mkUserMessage uid (.str "Continue") tU])
              (mapValues store.tools))⟩ := by
    unfold runTool
    rw [if_neg (by simp [hname, hid])]
    rw [hreg]
    simp only []
    rw [hexec]
    simp only []
    rw [if_pos (by simp)]
    rw [send_done_eq p rsn uid aid tU tA _ (.str "Continue") _ (by decide)
      (by simp)]
  rw [hrun]
  refine ⟨rfl, ?_, rfl, rfl, ?_⟩ <;>
    simp [mkUserMessage, SendInput.toParts, List.append_assoc]


/-- Witness for C4 at a concrete weather tool. -/
theorem c4_runTool_success_witness :
    (runTool (constEnv (fun _ => .ok Json.null) [Delta.done none]) "m" 5 "u" "a" 6 7
      ⟨⟨"s", [], .idle, none, none⟩,
        [("w", ⟨"w", Json.null, fun _ => .ok (Json.str "sunny")⟩)]⟩
      ⟨"c1", "w", Json.null⟩).result = .ok (Json.str "sunny")
    ∧ (runTool (constEnv (fun _ => .ok Json.null) [Delta.done none]) "m" 5 "u" "a" 6 7
      ⟨⟨"s", [], .idle, none, none⟩,
        [("w", ⟨"w", Json.null, fun _ => .ok (Json.str "sunny")⟩)]⟩
      ⟨"c1", "w", Json.null⟩).store.state.messages
      = (⟨⟨"s", [], .idle, none, none⟩,
          [("w", ⟨"w", Json.null, fun _ => .ok (Json.str "sunny")⟩)]⟩ : Store).state.messages
        ++ [⟨"m", .tool, [.tool_result "w" (Json.str "sunny") "c1"], 5, []⟩,
            ⟨"u", .user, [.text "Continue"], 6, []⟩]
    ∧ (runTool (constEnv (fun _ => .ok Json.null) [Delta.done none]) "m" 5 "u" "a" 6 7
      ⟨⟨"s", [], .idle, none, none⟩,
        [("w", ⟨"w", Json.null, fun _ => .ok (Json.str "sunny")⟩)]⟩
      ⟨"c1", "w", Json.null⟩).store.state.status = .idle
    ∧ (runTool (constEnv (fun _ => .ok Json.null) [Delta.done none]) "m" 5 "u" "a" 6 7
      ⟨⟨"s", [], .idle, none, none⟩,
        [("w", ⟨"w", Json.null, fun _ => .ok (Json.str "sunny")⟩)]⟩
      ⟨"c1", "w", Json.null⟩).store.state.currentToolCall = none
    ∧ (runTool (constEnv (fun _ => .ok Json.null) [Delta.done none]) "m" 5 "u" "a" 6 7
      ⟨⟨"s", [], .idle, none, none⟩,
        [("w", ⟨"w", Json.null, fun _ => .ok (Json.str "sunny")⟩)]⟩
      ⟨"c1", "w", Json.null⟩).contRequest
      = some (mkChatRequest
          ⟨contModel ((⟨⟨"s", [], .idle, none, none⟩,
              [("w", ⟨"w", Json.null, fun _ => .ok (Json.str "sunny")⟩)]⟩ : Store).state.messages
            ++ [⟨"m", .tool, [.tool_result "w" (Json.str "sunny") "c1"], 5, []⟩]),
            none, none, none⟩
          ((⟨⟨"s", [], .idle, none, none⟩,
              [("w", ⟨"w", Json.null, fun _ => .ok (Json.str "sunny")⟩)]⟩ : Store).state.messages
            ++ [⟨"m", .tool, [.tool_result "w" (Json.str "sunny") "c1"], 5, []⟩,
                ⟨"u", .user, [.text "Continue"], 6, []⟩])
          (mapValues (⟨⟨"s", [], .idle, none, none⟩,
              [("w", ⟨"w", Json.null, fun _ => .ok (Json.str "sunny")⟩)]⟩ : Store).tools)) :=
  c4_runTool_success (fun _ => .ok Json.null) none "m" 5 "u" "a" 6 7
    ⟨⟨"s", [], .idle, none, none⟩,
      [("w", ⟨"w", Json.null, fun _ => .ok (Json.str "sunny")⟩)]⟩
    ⟨"c1", "w", Json.null⟩ ⟨"w", Json.null, fun _ => .ok (Json.str "sunny")⟩
    (Json.str "sunny") (by decide) (by decide) rfl rfl

/-- The fragment loop can only grow or rewrite the draft slot after the
fixed prefix of the log: everything up to and including the last non
assistant message placed before the loop started stays in place. -/
lemma reduceDeltas_shape (p : String → Except JsError Json) :
    ∀ (ds : List Delta) (am : Message) (st : ChatState) (base : List Message)
      (u : Message) (t : List Message),
      st.messages = (base ++ [u]) ++ t →
      u.role ≠ .assistant → am.role = .assistant →
      (t = [] ∨ ∃ a2, t = [a2] ∧ a2.role = .assistant) →
      ∃ t2, (reduceDeltas p ds am st).st.messages = (base ++ [u]) ++ t2
        ∧ (t2 = [] ∨ ∃ a2, t2 = [a2] ∧ a2.role = .assistant) := by
  intro ds
  induction ds with
  | nil => exact fun am st base u t hst hu ham hts => ⟨t, hst, hts⟩
  | cons d rest ih =>
      intro am st base u t hst hu ham hts
      have hplace : ∀ am2 : Message, am2.role = .assistant →
          placeAssistant st.messages am2 = (base ++ [u]) ++ [am2] := by
        intro am2 ham2
        rcases hts with rfl | ⟨a2, rfl, ha2⟩
        · rw [hst]
          simp only [List.append_nil]
          exact placeAssistant_snoc_other base u am2 hu
        · rw [hst]
          exact placeAssistant_snoc_assistant (base ++ [u]) a2 am2 ha2
      cases d with
      | text c =>
          rw [reduceDeltas]
          exact ih _ _ base u [{ am with content := extendFirstText am.content c }]
            (by simp only []
                rw [hplace { am with content := extendFirstText am.content c } ham])
            hu ham (Or.inr ⟨_, rfl, ham⟩)
      | tool_use nm a i =>
          rw [reduceDeltas]
          cases hp : p a with
          | error e => exact ⟨t, hst, hts⟩
          | ok args =>
              refine ⟨[{ am with content := am.content ++ [.tool_use nm args i] }], ?_, ?_⟩
              · simp only []
                rw [hplace { am with content := am.content ++ [.tool_use nm args i] } ham]
              · exact Or.inr ⟨_, rfl, ham⟩
      | done r => exact ⟨t, hst, hts⟩

/-- Whatever the provider streams, a successful send keeps the log
prefix up to the appended user message intact, and issues exactly one
request whose history ends with that user message. -/
lemma send_shape (p : String → Except JsError Json) (ds : List Delta)
    (uid aid : String) (tU tA : Nat) (store : Store) (input : SendInput)
    (opts : SendOpts)
    (hin : input.isEmptyInput = false)
    (hstr : store.state.status ≠ .streaming) :
    (send (constEnv p ds) uid aid tU tA store input opts).request
      = some (mkChatRequest opts
          (store.state.messages ++ [mkUserMessage uid input tU])
          (mapValues store.tools))
    ∧ ∃ t2, (send (constEnv p ds) uid aid tU tA store input opts).store.state.messages
        = (store.state.messages ++ [mkUserMessage uid input tU]) ++ t2 := by
  obtain ⟨t2, hmsg, -⟩ :=
    reduceDeltas_shape p ds (mkDraft aid tA)
      (startState store.state (mkUserMessage uid input tU))
      store.state.messages (mkUserMessage uid input tU) []
      (by simp [startState]) (by simp [mkUserMessage]) rfl (Or.inl rfl)
  unfold send
  simp only [hin, Bool.false_eq_true, if_false]
  rw [if_neg hstr]
  simp only [constEnv]
  cases herr : (reduceDeltas p ds (mkDraft aid tA)
      (startState store.state (mkUserMessage uid input tU))).err with
  | some e =>
      simp only [herr]
      by_cases habort : e.name = "AbortError"
      · rw [if_pos habort]
        exact ⟨rfl, t2, hmsg⟩
      · rw [if_neg habort]
        exact ⟨rfl, t2, by simp [errState, hmsg]⟩
  | none =>
      simp only [herr]
      by_cases hlen : 0 < (reduceDeltas p ds (mkDraft aid tA)
            (startState store.state (mkUserMessage uid input tU))).am.content.length
          ∧ (reduceDeltas p ds (mkDraft aid tA)
            (startState store.state (mkUserMessage uid input tU))).st.messages.length = 1
      · rw [if_pos hlen]
        exact ⟨rfl, t2 ++ [(reduceDeltas p ds (mkDraft aid tA)
            (startState store.state (mkUserMessage uid input tU))).am],
          by simp [hmsg, List.append_assoc]⟩
      · rw [if_neg hlen]
        exact ⟨rfl, t2, hmsg⟩


lemma log_index_pair (old : List Message) (x y : Message) (t : List Message) :
    (((old ++ [x]) ++ [y]) ++ t)[old.length]? = some x
    ∧ (((old ++ [x]) ++ [y]) ++ t)[old.length + 1]? = some y := by
  have h1 : ((old ++ [x]) ++ [y]) ++ t = old ++ ([x] ++ ([y] ++ t)) := by
    simp [List.append_assoc]
  rw [h1]
  constructor
  · rw [List.getElem?_append_right (Nat.le_refl _)]
    simp
  · rw [List.getElem?_append_right (by omega)]
    have : old.length + 1 - old.length = 1 := by omega
    rw [this]
    simp


/-- Claim C5: whatever the continuation stream holds, after a
successful runTool the log carries the tool_result message at the old
length and, immediately after it, a user role message whose single
content part is the text Continue; that user message is also part of
the message history of the request issued to the provider. -/
theorem c5_continuation_marker (p : String → Except JsError Json) (ds : List Delta)
    (toolMsgId : String) (tT : Nat) (uid aid : String) (tU tA : Nat)
    (store : Store) (call : ToolCall) (tool : ToolDef) (res : Json)
    (hname : call.name ≠ "") (hid : call.id ≠ "")
    (hreg : mapGet store.tools call.name = some tool)
    (hexec : tool.execute call.args = .ok res) :
    (runTool (constEnv p ds) toolMsgId tT uid aid tU tA store
        call).store.state.messages[store.state.messages.length]?
      = some ⟨toolMsgId, .tool, [.tool_result call.name res call.id], tT, []⟩
    ∧ (runTool (constEnv p ds) toolMsgId tT uid aid tU tA store
        call).store.state.messages[store.state.messages.length + 1]?
      = some ⟨uid, .user, [.text "Continue"], tU, []⟩
    ∧ (runTool (constEnv p ds) toolMsgId tT uid aid tU tA store
        call).contRequest
      = some (mkChatRequest
          ⟨contModel (store.state.messages
            ++ [⟨toolMsgId, .tool, [.tool_result call.name res call.id], tT, []⟩]),
            none, none, none⟩
          ((store.state.messages
            ++ [⟨toolMsgId, .tool, [.tool_result call.name res call.id], tT, []⟩])
            ++ [⟨uid, .user, [.text "Continue"], tU, []⟩])
          (mapValues store.tools)) := by
  obtain ⟨hreq, t2, hmsg⟩ :=
    send_shape p ds uid aid tU tA
      ⟨{ store.state with
          messages := store.state.messages
            ++ [⟨toolMsgId, .tool, [.tool_result call.name res call.id], tT, []⟩],
          status := .idle, currentToolCall := none }, store.tools⟩
      (.str "Continue") ⟨contModel (store.state.messages
        ++ [⟨toolMsgId, .tool, [.tool_result call.name res call.id], tT, []⟩]),
        none, none, none⟩
      (by decide) (by simp)
  unfold runTool
  rw [if_neg (by simp [hname, hid]), hreg]
  simp only []
  rw [hexec]
  simp only []
  rw [if_pos (by simp)]
  cases hres : (send (constEnv p ds) uid aid tU tA
      ⟨{ store.state with
          messages := store.state.messages
            ++ [⟨toolMsgId, .tool, [.tool_result call.name res call.id], tT, []⟩],
          status := .idle, currentToolCall := none }, store.tools⟩
      (.str "Continue") ⟨contModel (store.state.messages
        ++ [⟨toolMsgId, .tool, [.tool_result call.name res call.id], tT, []⟩]),
        none, none, none⟩).result with
  | ok u =>
      simp only [hres]
      refine ⟨?_, ?_, hreq⟩
      · rw [hmsg]
        exact (log_index_pair store.state.messages _ _ t2).1
      · rw [hmsg]
        exact (log_index_pair store.state.messages _ _ t2).2
  | error e =>
      simp only [hres]
      refine ⟨?_, ?_, hreq⟩
      · show (errState _ e).messages[store.state.messages.length]? = _
        rw [errState]
        simp only []
        rw [hmsg]
        exact (log_index_pair store.state.messages _ _ t2).1
      · show (errState _ e).messages[store.state.messages.length + 1]? = _
        rw [errState]
        simp only []
        rw [hmsg]
        exact (log_index_pair store.state.messages _ _ t2).2


/-- Witness for C5 at a concrete tool and a continuation stream that
keeps streaming text. -/
theorem c5_continuation_marker_witness :
    (runTool (constEnv (fun _ => .ok Json.null) [Delta.text "Hi!"]) "m" 5 "u" "a" 6 7
      ⟨⟨"s", [], .idle, none, none⟩,
        [("w", ⟨"w", Json.null, fun _ => .ok (Json.str "sunny")⟩)]⟩
      ⟨"c1", "w", Json.null⟩).store.state.messages[
        (⟨⟨"s", [], .idle, none, none⟩,
          [("w", ⟨"w", Json.null, fun _ => .ok (Json.str "sunny")⟩)]⟩ : Store).state.messages.length]?
      = some ⟨"m", .tool, [.tool_result "w" (Json.str "sunny") "c1"], 5, []⟩
    ∧ (runTool (constEnv (fun _ => .ok Json.null) [Delta.text "Hi!"]) "m" 5 "u" "a" 6 7
      ⟨⟨"s", [], .idle, none, none⟩,
        [("w", ⟨"w", Json.null, fun _ => .ok (Json.str "sunny")⟩)]⟩
      ⟨"c1", "w", Json.null⟩).store.state.messages[
        (⟨⟨"s", [], .idle, none, none⟩,
          [("w", ⟨"w", Json.null, fun _ => .ok (Json.str "sunny")⟩)]⟩ : Store).state.messages.length
          + 1]?
      = some ⟨"u", .user, [.text "Continue"], 6, []⟩
    ∧ (runTool (constEnv (fun _ => .ok Json.null) [Delta.text "Hi!"]) "m" 5 "u" "a" 6 7
      ⟨⟨"s", [], .idle, none, none⟩,
        [("w", ⟨"w", Json.null, fun _ => .ok (Json.str "sunny")⟩)]⟩
      ⟨"c1", "w", Json.null⟩).contRequest
      = some (mkChatRequest
          ⟨contModel ((⟨⟨"s", [], .idle, none, none⟩,
              [("w", ⟨"w", Json.null, fun _ => .ok (Json.str "sunny")⟩)]⟩ : Store).state.messages
            ++ [⟨"m", .tool, [.tool_result "w" (Json.str "sunny") "c1"], 5, []⟩]),
            none, none, none⟩
          (((⟨⟨"s", [], .idle, none, none⟩,
              [("w", ⟨"w", Json.null, fun _ => .ok (Json.str "sunny")⟩)]⟩ : Store).state.messages
            ++ [⟨"m", .tool, [.tool_result "w" (Json.str "sunny") "c1"], 5, []⟩])
            ++ [⟨"u", .user, [.text "Continue"], 6, []⟩])
          (mapValues (⟨⟨"s", [], .idle, none, none⟩,
              [("w", ⟨"w", Json.null, fun _ => .ok (Json.str "sunny")⟩)]⟩ : Store).tools)) :=
  c5_continuation_marker (fun _ => .ok Json.null) [Delta.text "Hi!"] "m" 5 "u" "a" 6 7
    ⟨⟨"s", [], .idle, none, none⟩,
      [("w", ⟨"w", Json.null, fun _ => .ok (Json.str "sunny")⟩)]⟩
    ⟨"c1", "w", Json.null⟩ ⟨"w", Json.null, fun _ => .ok (Json.str "sunny")⟩
    (Json.str "sunny") (by decide) (by decide) rfl rfl

/-- Counterexample to C6 as stated: a call with an empty id and an
unregistered name fails with the call validation error, whose message
is not the not found message and does not reference the name. -/
theorem c6_counterexample :
    (runTool (constEnv (fun _ => .ok Json.null) []) "m" 0 "u" "a" 0 0
      (freshStore "s") ⟨"", "ghost", Json.null⟩).result
      = .error ⟨"Error", "Tool call must have name and id"⟩
    ∧ (runTool (constEnv (fun _ => .ok Json.null) []) "m" 0 "u" "a" 0 0
      (freshStore "s") ⟨"", "ghost", Json.null⟩).store = freshStore "s"
    ∧ "Tool call must have name and id" ≠ "Tool ghost not found" :=
  ⟨rfl, rfl, by decide⟩

/-- Claim C6, amended: for a call carrying a non empty name and a non
empty id whose name is not registered, runTool fails with the not found
error naming the tool, before any executor could run, and the whole
store is returned unchanged. -/
theorem c6_not_found (env : Env) (toolMsgId : String) (tT : Nat)
    (uid aid : String) (tU tA : Nat) (store : Store) (call : ToolCall)
    (hname : call.name ≠ "") (hid : call.id ≠ "")
    (hreg : mapGet store.tools call.name = none) :
    runTool env toolMsgId tT uid aid tU tA store call
      = ⟨store, .error ⟨"Error", "Tool " ++ call.name ++ " not found"⟩, none⟩ := by
  unfold runTool
  rw [if_neg (by simp [hname, hid]), hreg]

/-- Witness for the amended C6 at a concrete unregistered name. -/
theorem c6_not_found_witness :
    runTool (constEnv (fun _ => .ok Json.null) []) "m" 0 "u" "a" 0 0
      (freshStore "s") ⟨"c9", "ghost", Json.null⟩
      = ⟨freshStore "s", .error ⟨"Error", "Tool " ++ "ghost" ++ " not found"⟩, none⟩ :=
  c6_not_found (constEnv (fun _ => .ok Json.null) []) "m" 0 "u" "a" 0 0
    (freshStore "s") ⟨"c9", "ghost", Json.null⟩ (by decide) (by decide) rfl

/-- Claim C7: when the executor of a registered tool rejects, runTool
sets status error, records the message of the raised error verbatim,
clears currentToolCall, leaves the log alone, and re-raises the same
error to the caller. -/
theorem c7_executor_failure (env : Env) (toolMsgId : String) (tT : Nat)
    (uid aid : String) (tU tA : Nat) (store : Store) (call : ToolCall)
    (tool : ToolDef) (e : JsError)
    (hname : call.name ≠ "") (hid : call.id ≠ "")
    (hreg : mapGet store.tools call.name = some tool)
    (hexec : tool.execute call.args = .error e) :
    runTool env toolMsgId tT uid aid tU tA store call
      = ⟨⟨errState store.state e, store.tools⟩, .error e, none⟩ := by
  unfold runTool
  rw [if_neg (by simp [hname, hid]), hreg]
  simp only []
  rw [hexec]

/-- Witness for C7 at a concrete failing executor. -/
theorem c7_executor_failure_witness :
    runTool (constEnv (fun _ => .ok Json.null) []) "m" 0 "u" "a" 0 0
      ⟨⟨"s", [], .toolCalling, some ⟨"c1", "w", Json.null⟩, none⟩,
        [("w", ⟨"w", Json.null, fun _ => .error ⟨"Error", "boom"⟩⟩)]⟩
      ⟨"c1", "w", Json.null⟩
      = ⟨⟨⟨"s", [], .error, none, some "boom"⟩,
          [("w", ⟨"w", Json.null, fun _ => .error ⟨"Error", "boom"⟩⟩)]⟩,
        .error ⟨"Error", "boom"⟩, none⟩ :=
  c7_executor_failure (constEnv (fun _ => .ok Json.null) []) "m" 0 "u" "a" 0 0
    ⟨⟨"s", [], .toolCalling, some ⟨"c1", "w", Json.null⟩, none⟩,
      [("w", ⟨"w", Json.null, fun _ => .error ⟨"Error", "boom"⟩⟩)]⟩
    ⟨"c1", "w", Json.null⟩ ⟨"w", Json.null, fun _ => .error ⟨"Error", "boom"⟩⟩
    ⟨"Error", "boom"⟩ (by decide) (by decide) rfl rfl


lemma mapSet_cons_ne (q : String × ToolDef) (m : List (String × ToolDef))
    (k : String) (v : ToolDef) (hqk : q.1 ≠ k) :
    mapSet (q :: m) k v = q :: mapSet m k v := by
  unfold mapSet
  have hq : (q.1 == k) = false := by simp [hqk]
  by_cases ha : m.any (fun p => p.1 == k) = true
  · rw [if_pos (by simp [List.any_cons, ha]), if_pos ha]
    simp only [List.map_cons, hq, Bool.false_eq_true, if_false]
  · rw [if_neg (by simp [List.any_cons, hq]; simpa using ha), if_neg ha]
    simp

lemma find_key_append (m : List (String × ToolDef)) (k : String) (v : ToolDef)
    (h : ∀ q ∈ m, q.1 ≠ k) :
    (m ++ [(k, v)]).find? (fun p => p.1 == k) = some (k, v) := by
  induction m with
  | nil => simp [List.find?]
  | cons q m ih =>
      simp only [List.cons_append]
      rw [List.find?_cons_of_neg _ (by simp [h q (by simp)])]
      exact ih (fun q2 hq2 => h q2 (by simp [hq2]))

lemma find_key_map (m : List (String × ToolDef)) (k : String) (v : ToolDef)
    (h : ∃ q ∈ m, q.1 = k) :
    ((m.map (fun p => if p.1 == k then (k, v) else p)).find? (fun p => p.1 == k))
      = some (k, v) := by
  induction m with
  | nil => simp at h
  | cons q m ih =>
      rw [List.map_cons]
      by_cases hqk : q.1 = k
      · rw [show (if q.1 == k then (k, v) else q) = (k, v) by simp [hqk]]
        rw [List.find?_cons_of_pos _ (by simp)]
      · rw [show (if q.1 == k then (k, v) else q) = q by simp [hqk]]
        rw [List.find?_cons_of_neg _ (by simp [hqk])]
        refine ih ?_
        rcases h with ⟨q2, hq2, hk2⟩
        rcases List.mem_cons.mp hq2 with rfl | hmem
        · exact absurd hk2 hqk
        · exact ⟨q2, hmem, hk2⟩

lemma mapGet_mapSet_self (m : List (String × ToolDef)) (k : String) (v : ToolDef) :
    mapGet (mapSet m k v) k = some v := by
  by_cases hex : m.any (fun p => p.1 == k) = true
  · unfold mapSet
    rw [if_pos hex]
    unfold mapGet
    rw [find_key_map m k v]
    · rfl
    · obtain ⟨q, hq, hqk⟩ := List.any_eq_true.mp hex
      exact ⟨q, hq, by simpa using hqk⟩
  · unfold mapSet
    rw [if_neg hex]
    unfold mapGet
    rw [find_key_append m k v]
    · rfl
    · intro q hq hqk
      exact hex (List.any_eq_true.mpr ⟨q, hq, by simp [hqk]⟩)

lemma countP_name_mapSet (k : String) (v : ToolDef) (hv : v.name = k) :
    ∀ (m : List (String × ToolDef)),
      (∀ q ∈ m, q.1 = q.2.name) → ((m.map Prod.fst).Nodup) →
      (mapValues (mapSet m k v)).countP (fun t => t.name == k) = 1 := by
  intro m
  induction m with
  | nil =>
      intro _ _
      simp [mapSet, mapValues, hv]
  | cons q m ih =>
      intro hwf hkeys
      rw [List.map_cons, List.nodup_cons] at hkeys
      by_cases hqk : q.1 = k
      · have hnok : ∀ q2 ∈ m, q2.1 ≠ k := by
          intro q2 hq2 hk2
          exact hkeys.1 (show q.1 ∈ m.map Prod.fst by
            rw [hqk, ← hk2]
            exact List.mem_map_of_mem Prod.fst hq2)
        have hmap : mapSet (q :: m) k v = (k, v) :: m := by
          unfold mapSet
          rw [if_pos (by simp [List.any_cons, hqk])]
          rw [List.map_cons]
          rw [show (if q.1 == k then (k, v) else q) = (k, v) by simp [hqk]]
          congr 1
          calc m.map (fun p => if p.1 == k then (k, v) else p)
              = m.map id := by
                apply List.map_congr_left
                intro p hp
                simp [hnok p hp]
            _ = m := List.map_id m
        rw [hmap]
        have hrest : (mapValues m).countP (fun t => t.name == k) = 0 := by
          refine List.countP_eq_zero.mpr ?_
          intro t ht
          obtain ⟨q2, hq2, rfl⟩ := List.mem_map.mp ht
          simp [← hwf q2 (by simp [hq2]), hnok q2 hq2]
        show (v :: mapValues m).countP (fun t => t.name == k) = 1
        rw [List.countP_cons]
        simp [hrest, hv]
      · rw [mapSet_cons_ne q m k v hqk]
        show (q.2 :: mapValues (mapSet m k v)).countP (fun t => t.name == k) = 1
        rw [List.countP_cons]
        have hq2 : (q.2.name == k) = false := by
          simp [← hwf q (by simp), hqk]
        rw [ih (fun q2 h2 => hwf q2 (by simp [h2])) hkeys.2]
        simp [hq2]


lemma mapSet_wf (m : List (String × ToolDef)) (k : String) (v : ToolDef)
    (hv : v.name = k) (hwf : ∀ q ∈ m, q.1 = q.2.name) :
    ∀ q ∈ mapSet m k v, q.1 = q.2.name := by
  unfold mapSet
  by_cases ha : m.any (fun p => p.1 == k) = true
  · rw [if_pos ha]
    intro q2 hq2
    obtain ⟨p, hp, rfl⟩ := List.mem_map.mp hq2
    by_cases hpk : (p.1 == k) = true
    · simp [hpk, hv]
    · simp only [hpk, Bool.false_eq_true, if_false]
      exact hwf p hp
  · rw [if_neg ha]
    intro q2 hq2
    rcases List.mem_append.mp hq2 with hmem | hmem
    · exact hwf q2 hmem
    · simp only [List.mem_singleton] at hmem
      rw [hmem]
      exact hv.symm

lemma mapSet_keys_nodup (m : List (String × ToolDef)) (k : String) (v : ToolDef)
    (hkeys : (m.map Prod.fst).Nodup) :
    ((mapSet m k v).map Prod.fst).Nodup := by
  unfold mapSet
  by_cases ha : m.any (fun p => p.1 == k) = true
  · rw [if_pos ha]
    have : (m.map (fun p => if p.1 == k then (k, v) else p)).map Prod.fst
        = m.map Prod.fst := by
      rw [List.map_map]
      apply List.map_congr_left
      intro p _
      by_cases hpk : (p.1 == k) = true
      · simp only [Function.comp_apply, hpk, if_true]
        exact (eq_of_beq hpk).symm
      · have hpk3 : ¬ p.1 = k := fun h => hpk (by simp [h])
        simp [hpk3]
    rw [this]
    exact hkeys
  · rw [if_neg ha]
    rw [List.map_append]
    simp only [List.map_cons, List.map_nil]
    rw [List.nodup_append]
    refine ⟨hkeys, List.nodup_singleton k, ?_⟩
    intro a hmem hsing
    simp only [List.mem_singleton] at hsing
    obtain ⟨p, hp, rfl⟩ := List.mem_map.mp hmem
    exact ha (List.any_eq_true.mpr ⟨p, hp, by simp [hsing]⟩)

/-- Claim C8: registering two tools with the same non empty name, over
any registry whose keys are unique and match the stored tool names,
leaves the registry mapping that name to exactly the second definition,
getTools holding exactly one tool of that name, and, on a fresh
session, getTools equal to the one element list of the second tool. -/
theorem c8_last_write_wins (store : Store) (d1 d2 : ToolDef)
    (hnm : d1.name = d2.name) (hne : d2.name ≠ "")
    (hkeys : (store.tools.map Prod.fst).Nodup)
    (hwf : ∀ q ∈ store.tools, q.1 = q.2.name) :
    mapGet (registerTool (registerTool store d1).1 d2).1.tools d2.name = some d2
    ∧ (getTools (registerTool (registerTool store d1).1 d2).1).countP
        (fun t => t.name == d2.name) = 1
    ∧ (store.tools = []
        → getTools (registerTool (registerTool store d1).1 d2).1 = [d2]) := by
  have h1 : (registerTool store d1).1
      = { store with tools := mapSet store.tools d1.name d1 } := by
    unfold registerTool
    rw [if_neg (by rw [hnm]; exact hne)]
  have h2 : (registerTool { store with tools := mapSet store.tools d1.name d1 } d2).1
      = { store with tools := mapSet (mapSet store.tools d1.name d1) d2.name d2 } := by
    unfold registerTool
    rw [if_neg hne]
  rw [h1, h2]
  refine ⟨mapGet_mapSet_self _ _ _, ?_, ?_⟩
  · exact countP_name_mapSet d2.name d2 rfl _
      (mapSet_wf store.tools d1.name d1 rfl hwf)
      (mapSet_keys_nodup store.tools d1.name d1 hkeys)
  · intro h0
    show mapValues (mapSet (mapSet store.tools d1.name d1) d2.name d2) = [d2]
    rw [h0]
    have hc1 : mapSet ([] : List (String × ToolDef)) d1.name d1 = [(d1.name, d1)] := rfl
    rw [hc1]
    unfold mapSet
    rw [if_pos (by simp [List.any_cons, hnm])]
    rw [List.map_cons]
    rw [show (if (d1.name, d1).1 == d2.name then (d2.name, d2) else (d1.name, d1))
        = (d2.name, d2) by simp [hnm]]
    rfl

/-- Witness for C8 on a fresh session. -/
theorem c8_last_write_wins_witness :
    mapGet (registerTool (registerTool (freshStore "s")
        ⟨"t", Json.null, fun _ => .ok Json.null⟩).1
        ⟨"t", Json.null, fun _ => .ok (Json.bool true)⟩).1.tools "t"
      = some ⟨"t", Json.null, fun _ => .ok (Json.bool true)⟩
    ∧ (getTools (registerTool (registerTool (freshStore "s")
        ⟨"t", Json.null, fun _ => .ok Json.null⟩).1
        ⟨"t", Json.null, fun _ => .ok (Json.bool true)⟩).1).countP
        (fun t => t.name == "t") = 1
    ∧ ((freshStore "s").tools = []
        → getTools (registerTool (registerTool (freshStore "s")
            ⟨"t", Json.null, fun _ => .ok Json.null⟩).1
            ⟨"t", Json.null, fun _ => .ok (Json.bool true)⟩).1
          = [⟨"t", Json.null, fun _ => .ok (Json.bool true)⟩]) :=
  c8_last_write_wins (freshStore "s")
    ⟨"t", Json.null, fun _ => .ok Json.null⟩
    ⟨"t", Json.null, fun _ => .ok (Json.bool true)⟩
    rfl (by decide) (by simp [freshStore]) (by simp [freshStore])


/-- Claim C9: importHistory of exportHistory on a fresh session
reproduces the exact message sequence whenever every exported entry
passes the structural validation (in this typed model: a non empty id),
and importHistory of a list holding any malformed entry fails fast with
the target store unchanged. -/
theorem c9_roundtrip (store : Store) (sid : String) (target : Store)
    (msgs : List Message) :
    ((∀ m ∈ exportHistory store, msgValid m = true) →
      (importHistory (freshStore sid) (exportHistory store)).1.state.messages
        = store.state.messages
      ∧ (importHistory (freshStore sid) (exportHistory store)).2 = .ok ())
    ∧ ((∃ m ∈ msgs, msgValid m = false) →
      importHistory target msgs
        = (target, .error ⟨"Error", "Invalid message format"⟩)) := by
  constructor
  · intro hall
    unfold importHistory
    rw [if_pos (List.all_eq_true.mpr (fun m hm => hall m hm))]
    exact ⟨rfl, rfl⟩
  · rintro ⟨m, hm, hbad⟩
    unfold importHistory
    rw [if_neg (by
      intro hall
      have h2 := List.all_eq_true.mp hall m hm
      rw [hbad] at h2
      exact Bool.false_ne_true h2)]

/-- Witness for C9: a one message round trip and a rejected import of
a message with an empty id. -/
theorem c9_roundtrip_witness :
    ((importHistory (freshStore "f")
        (exportHistory ⟨⟨"s", [⟨"m1", .user, [.text "x"], 0, []⟩], .idle, none, none⟩,
          []⟩)).1.state.messages
      = (⟨⟨"s", [⟨"m1", .user, [.text "x"], 0, []⟩], .idle, none, none⟩,
          []⟩ : Store).state.messages
      ∧ (importHistory (freshStore "f")
          (exportHistory ⟨⟨"s", [⟨"m1", .user, [.text "x"], 0, []⟩], .idle, none, none⟩,
            []⟩)).2 = .ok ())
    ∧ importHistory (freshStore "t") [⟨"", .user, [], 0, []⟩]
      = (freshStore "t", .error ⟨"Error", "Invalid message format"⟩) :=
  ⟨(c9_roundtrip ⟨⟨"s", [⟨"m1", .user, [.text "x"], 0, []⟩], .idle, none, none⟩, []⟩
      "f" (freshStore "t") [⟨"", .user, [], 0, []⟩]).1
      (by intro m hm
          simp only [exportHistory, List.mem_singleton] at hm
          rw [hm]
          rfl),
    (c9_roundtrip ⟨⟨"s", [⟨"m1", .user, [.text "x"], 0, []⟩], .idle, none, none⟩, []⟩
      "f" (freshStore "t") [⟨"", .user, [], 0, []⟩]).2
      ⟨⟨"", .user, [], 0, []⟩, List.mem_singleton.mpr rfl, rfl⟩⟩

/-- Claim C10: stop forces status to idle and clears currentToolCall
while leaving messages, error, sessionId and the tool registry exactly
unchanged. -/
theorem c10_stop_frame (store : Store) :
    (stop store).state.status = .idle
    ∧ (stop store).state.currentToolCall = none
    ∧ (stop store).state.messages = store.state.messages
    ∧ (stop store).state.error = store.state.error
    ∧ (stop store).state.sessionId = store.state.sessionId
    ∧ (stop store).tools = store.tools :=
  ⟨rfl, rfl, rfl, rfl, rfl, rfl⟩

end AICore
